import Mathlib

/-!
# Verification of the Query Execution & Join Engine specification

This file gives a shallow embedding of the parts of the
`data_retrieval_system` repository that the specification's claims are
about, together with proofs settling each claim.

JSON-shaped dynamic values (connector parameters, engine payloads,
HTTP response bodies) are embedded as the inductive `Json` below.
TypeScript functions from the repository are translated one-to-one into
Lean functions over `Json`; where a claim depends on the Python engine
(whose sources are not part of the repository snapshot), the relevant
behaviour is modelled from the specification text, and each such
definition is marked `Modelled from the spec:` in its doc comment.
-/

namespace DataRetrieval

/-- A JSON value: the dynamic value type over which the repository's
parameter-handling, extraction and response-shaping code operates.
Numbers are embedded as integers (the claims under study never depend
on fractional numerics). -/
inductive Json where
  | null
  | bool (b : Bool)
  | num (n : Int)
  | str (s : String)
  | arr (elems : List Json)
  | obj (fields : List (String × Json))
deriving Repr

/-- First-match association lookup on an object's field list: the model of
JavaScript property access `o[k]` for own data properties. -/
def lookupField : List (String × Json) → String → Option Json
  | [], _ => none
  | (k', v) :: rest, k => if k' = k then some v else lookupField rest k

/-- JavaScript truthiness test restricted to `Json` values: models `!data`
(`null`/`undefined`, `false`, `0`, `""` are falsy; arrays and objects are
always truthy). -/
def jsFalsy : Json → Bool
  | .null => true
  | .bool b => !b
  | .num n => n == 0
  | .str s => s == ""
  | .arr _ => false
  | .obj _ => false

/-- Read a run of decimal digits, extending the accumulated value;
`none` on any non-digit. -/
def digitsAux (acc : Nat) : List Char → Option Nat
  | [] => some acc
  | c :: rest =>
    if 48 ≤ c.toNat && c.toNat ≤ 57 then
      digitsAux (acc * 10 + (c.toNat - 48)) rest
    else none

/-- Parse a canonical decimal numeral (no sign, no leading zeros): the
strings under which JavaScript's `in` exposes an array index. -/
def parseIndex : List Char → Option Nat
  | [] => none
  | c :: rest =>
    if c.toNat = 48 then (if rest = [] then some 0 else none)
    else if 49 ≤ c.toNat && c.toNat ≤ 57 then digitsAux (c.toNat - 48) rest
    else none

/-- One traversal step of `extractDataByPath`'s loop: models
`current && typeof current === 'object' && part in current` followed by
`current = current[part]`.  On objects the segment is looked up as a key;
on arrays, JavaScript's `part in current` holds exactly when the segment
is the canonical decimal numeral of an index below the length, in which
case `current[part]` is that element.  Everything else fails the test. -/
def getSeg : Json → String → Option Json
  | .obj fs, part => lookupField fs part
  | .arr xs, part =>
    match parseIndex part.data with
    | some i => xs.get? i
    | none => none
  | _, _ => none

/-- The loop of `extractDataByPath` (client `Queries` page): walk the
remaining segments, returning `[]` as soon as a segment fails to resolve;
once the segments are exhausted, return the value's elements if it is an
array and `[]` otherwise. -/
def extractGo : Json → List String → List Json
  | cur, [] => match cur with
    | .arr xs => xs
    | _ => []
  | cur, p :: ps =>
    match getSeg cur p with
    | some nxt => extractGo nxt ps
    | none => []

/-- Character-level model of JavaScript `path.split('.')`: `cur` holds
the reversed characters of the piece being built. -/
def splitDotAux (cur : List Char) : List Char → List String
  | [] => [String.mk cur.reverse]
  | c :: rest =>
    if c = '.' then String.mk cur.reverse :: splitDotAux [] rest
    else splitDotAux (c :: cur) rest

/-- `path.split('.')`. -/
def splitDot (path : String) : List String :=
  splitDotAux [] path.data

/-- Translation of `extractDataByPath(data, path)` from the client
`Queries` page: `if (!path || !data) return []`, then split the dotted
path on `'.'` and walk it with the loop above. -/
def extractDataByPath (data : Json) (path : String) : List Json :=
  if path = "" || jsFalsy data then []
  else extractGo data (splitDot path)

/-- The claim's notion of traversal, for comparison with the code:
"extraction traverses the mapping keys named by the path segments" —
a step resolves only through mapping (object) keys. -/
def mappingStep : Json → String → Option Json
  | .obj fs, part => lookupField fs part
  | _, _ => none

/-- Mapping-keys-only walk over all segments (the claim's traversal). -/
def mappingWalk (j : Json) (segs : List String) : Option Json :=
  segs.foldl (fun acc p => acc.bind (fun c => mappingStep c p)) (some j)

/-- The code's walk over all segments, as a declarative fold (objects by
key, arrays by canonical index). -/
def pathWalk (j : Json) (segs : List String) : Option Json :=
  segs.foldl (fun acc p => acc.bind (fun c => getSeg c p)) (some j)

/-- Rows delivered for a walk outcome: the elements when the walk reached
an array, the empty table in every other case. -/
def rowsOf : Option Json → List Json
  | some (.arr xs) => xs
  | _ => []

/-! ## Deep merge of parameter overrides (`deepMerge` in the run route) -/

/-- Models JavaScript `typeof v === 'object' && !Array.isArray(v)`:
true for objects and — a JavaScript peculiarity central to claim C2 —
for `null`. -/
def typeofObjectNotArray : Json → Bool
  | .obj _ => true
  | .null => true
  | _ => false

/-- Model of the assignment `result[key] = v` when `key in result`:
the entry for `key` keeps its position, its value is overwritten. -/
def setKey : List (String × Json) → String → Json → List (String × Json)
  | [], _, _ => []
  | (k1, v1) :: rest, k, v =>
    if k1 = k then (k1, v) :: setKey rest k v
    else (k1, v1) :: setKey rest k v

mutual

/-- Translation of `deepMerge(target, source)` from the query-run route:
`null`/`undefined` source keeps the target; a non-object (or array)
source replaces the target wholesale; a non-object (or array) target is
replaced by the source; two objects are merged key by key. -/
def deepMerge (target source : Json) : Json :=
  match source with
  | .null => target
  | .obj sfs =>
    match target with
    | .obj tfs => .obj (mergeFields tfs sfs)
    | _ => .obj sfs
  | s => s
termination_by sizeOf source
decreasing_by
  all_goals simp_wf

/-- The loop `for (const key of Object.keys(source))` over `result`
(initially a copy of the target's fields): when the key is present and
both sides pass the `typeof === 'object' && !Array.isArray` test, the
values are merged recursively; otherwise the source value is assigned;
a fresh key is appended. -/
def mergeFields (acc : List (String × Json)) :
    List (String × Json) → List (String × Json)
  | [] => acc
  | (k, sv) :: rest =>
    match lookupField acc k with
    | some tv =>
      if typeofObjectNotArray tv && typeofObjectNotArray sv then
        mergeFields (setKey acc k (deepMerge tv sv)) rest
      else
        mergeFields (setKey acc k sv) rest
    | none => mergeFields (acc ++ [(k, sv)]) rest
termination_by sfs => sizeOf sfs
decreasing_by
  all_goals simp_wf
  all_goals omega

end

/-- One key's outcome in the merged object, as a function of the target's
value at that key (if any) and the override's value: used to state claim
C2's per-key description of `deepMerge`. -/
def mergeStep (tvo : Option Json) (sv : Json) : Json :=
  match tvo with
  | some tv =>
    if typeofObjectNotArray tv && typeofObjectNotArray sv then
      deepMerge tv sv
    else sv
  | none => sv

/-! ## Placeholder substitution (`substitutePlaceholders` in the client) -/

/-- The character `{`. -/
def lbrace : Char := Char.ofNat 123

/-- The character `}`. -/
def rbrace : Char := Char.ofNat 125

/-- The literal placeholder token for a name, as a character list. -/
def tokenOf (name : String) : List Char :=
  lbrace :: (name.data ++ [rbrace])

/-- The backtick character. -/
def backquoteChar : Char := Char.ofNat 96

/-- The apostrophe character. -/
def squoteChar : Char := Char.ofNat 39

/-- JavaScript replacement-pattern expansion (ECMA-262
`GetSubstitution`) for a regex with no capture groups: in the
replacement template, `$$` collapses to `$`, `$&` inserts the matched
substring, `$` followed by the backquote character inserts the portion
of the original subject before the match, `$` followed by the
apostrophe character inserts the portion after the match, and any other
`$` (including `$1`, since the pattern has no groups) stays literal. -/
def expandDollar (matched before after : List Char) : List Char → List Char
  | [] => []
  | c :: rest =>
    if c = '$' then
      match rest with
      | [] => ['$']
      | d :: rest2 =>
        if d = '$' then '$' :: expandDollar matched before after rest2
        else if d = '&' then matched ++ expandDollar matched before after rest2
        else if d = backquoteChar then before ++ expandDollar matched before after rest2
        else if d = squoteChar then after ++ expandDollar matched before after rest2
        else '$' :: d :: expandDollar matched before after rest2
    else c :: expandDollar matched before after rest

/-- Model of JavaScript `s.replace(new RegExp(pat, 'g'), rep)` for a
pattern that matches the literal token `pat`: left-to-right,
non-overlapping, the replacement output is not rescanned, and at each
match the template `rep` undergoes `$`-expansion against the matched
token, the already-scanned prefix `pre` of the original subject, and
the unscanned suffix.  The source splices the placeholder name into the
regex source unescaped, so this literal-match model is faithful exactly
for names built from regex-literal characters (every name the
specification and the UI exercise); a name containing regex
metacharacters would change what the pattern matches, or make
`new RegExp` throw.  (The binder `h` feeds the termination argument.) -/
def jsReplaceGo (pat rep : List Char) : List Char → List Char → List Char
  | _, [] => []
  | pre, c :: rest =>
    if h : pat ≠ [] ∧ pat.isPrefixOf (c :: rest) = true then
      expandDollar pat pre (List.drop pat.length (c :: rest)) rep
        ++ jsReplaceGo pat rep (pre ++ pat) (List.drop pat.length (c :: rest))
    else
      c :: jsReplaceGo pat rep (pre ++ [c]) rest
termination_by _ l => l.length
decreasing_by
  · simp only [List.length_drop, List.length_cons]
    have hp : pat.length ≠ 0 := fun hl => h.1 (List.eq_nil_of_length_eq_zero hl)
    omega
  · simp

/-- `s.replace(new RegExp(token, 'g'), rep)` on a whole subject string
(no prefix scanned yet). -/
def jsReplaceAll (pat rep s : List Char) : List Char :=
  jsReplaceGo pat rep [] s

/-- Substitution over one string leaf: the loop
`for (const [placeholder, inputValue] of Object.entries(placeholderValues))`
replacing each `{placeholder}` globally, in entry order, with
JavaScript replacement semantics. -/
def substStr (vals : List (String × String)) (s : String) : String :=
  String.mk (vals.foldl (fun acc p => jsReplaceAll (tokenOf p.1) p.2.data acc) s.data)

mutual

/-- Translation of the client's `substitutePlaceholders(value,
placeholderValues)`: strings get every supplied `{name}` replaced, arrays
and objects are traversed recursively, all other leaves are returned
unchanged. -/
def substitutePlaceholders (vals : List (String × String)) : Json → Json
  | .str s => .str (substStr vals s)
  | .arr xs => .arr (substList vals xs)
  | .obj fs => .obj (substFields vals fs)
  | j => j
termination_by j => sizeOf j
decreasing_by
  all_goals simp_wf

def substList (vals : List (String × String)) : List Json → List Json
  | [] => []
  | x :: xs => substitutePlaceholders vals x :: substList vals xs
termination_by xs => sizeOf xs
decreasing_by
  all_goals simp_wf
  all_goals omega

def substFields (vals : List (String × String)) :
    List (String × Json) → List (String × Json)
  | [] => []
  | (k, v) :: fs => (k, substitutePlaceholders vals v) :: substFields vals fs
termination_by fs => sizeOf fs
decreasing_by
  all_goals simp_wf
  all_goals omega

end

/-- Does `pat` occur as a contiguous run anywhere in the list? -/
def containsPat (pat : List Char) : List Char → Bool
  | [] => pat.isEmpty
  | c :: rest => pat.isPrefixOf (c :: rest) || containsPat pat rest

/-- Scan a string for placeholder tokens, the way the client regex
`/\x7b([^\x7d]+)\x7d/g` does: at a `{`, a maximal nonempty run of
non-`}` characters followed by `}` is a token (whose name is the run);
otherwise scanning resumes at the next character. -/
def scanTokens : List Char → List String
  | [] => []
  | c :: rest =>
    if c = lbrace then
      let run := rest.takeWhile (fun d => d ≠ rbrace)
      if run ≠ [] ∧ rest.drop run.length ≠ [] then
        String.mk run :: scanTokens (rest.drop (run.length + 1))
      else
        scanTokens rest
    else
      scanTokens rest
termination_by l => l.length
decreasing_by
  · simp only [List.length_drop, List.length_cons]
    omega
  · simp
  · simp

mutual

/-- All placeholder tokens occurring in string leaves of a value, in
traversal order (the client's `extractPlaceholders` collects exactly
these names, de-duplicated). -/
def jsonTokens : Json → List String
  | .str s => scanTokens s.data
  | .arr xs => jsonTokensList xs
  | .obj fs => jsonTokensFields fs
  | _ => []
termination_by j => sizeOf j
decreasing_by
  all_goals simp_wf

def jsonTokensList : List Json → List String
  | [] => []
  | x :: xs => jsonTokens x ++ jsonTokensList xs
termination_by xs => sizeOf xs
decreasing_by
  all_goals simp_wf
  all_goals omega

def jsonTokensFields : List (String × Json) → List String
  | [] => []
  | (_, v) :: fs => jsonTokens v ++ jsonTokensFields fs
termination_by fs => sizeOf fs
decreasing_by
  all_goals simp_wf
  all_goals omega

end

/-! ## The Python QueryEngine's parameter resolution (modelled) -/

/-- The engine-side error taxonomy relevant to the claims (spec §7). -/
inductive EngineError where
  | ParameterError (name : String)
deriving Repr, DecidableEq

/-- Modelled from the spec: the Python QueryEngine's parameter-resolution
step (`python_src` is invoked by the routes but is not part of this
repository snapshot).  Per §4.4 steps (2)–(3) and §7: deep-merge the
overrides onto the stored parameters, substitute caller-supplied
`\x7bplaceholder\x7d` values into string leaves, and report a
`ParameterError` naming the first placeholder still unsubstituted — a
caller error — rather than leaving the literal token in the parameters. -/
def resolveQueryParameters (stored overrides : Json)
    (supplied : List (String × String)) : Except EngineError Json :=
  let merged := deepMerge stored overrides
  let substituted := substitutePlaceholders supplied merged
  match jsonTokens substituted with
  | [] => .ok substituted
  | name :: _ => .error (.ParameterError name)

/-- Outcome of one connector fetch attempt (spec §4.1: a typed
`FetchFailure` carries whether it is retryable). -/
inductive FetchOutcome where
  | success (data : Json)
  | failure (retryable : Bool) (msg : String)
deriving Repr

/-- Is the outcome a retryable failure? -/
def retryableFail : FetchOutcome → Bool
  | .failure true _ => true
  | _ => false

/-- Modelled from the spec: the RetryPolicy loop of §4.2 (`python_src`
retry code is not part of this repository snapshot).  `attempt` is the
zero-based index of the invocation about to run, `remaining` how many
retries are still allowed.  Returns the final outcome together with the
total number of invocations performed: success and non-retryable
failures stop immediately, retryable failures retry while retries
remain. -/
def retryExecAux (op : Nat → FetchOutcome) : Nat → Nat → FetchOutcome × Nat
  | attempt, 0 =>
    match op attempt with
    | .success d => (.success d, attempt + 1)
    | .failure rb msg => (.failure rb msg, attempt + 1)
  | attempt, r + 1 =>
    match op attempt with
    | .success d => (.success d, attempt + 1)
    | .failure false msg => (.failure false msg, attempt + 1)
    | .failure true _ => retryExecAux op (attempt + 1) r

/-- Modelled from the spec: `RetryPolicy.execute` with a bound of
`maxRetries` retries after the initial attempt (§4.2, §8). -/
def retryExec (maxRetries : Nat) (op : Nat → FetchOutcome) :
    FetchOutcome × Nat :=
  retryExecAux op 0 maxRetries

/-- Result shape of a modelled engine execution: either a failure
carrying an engine error, or fetched data; paired with how many times
the connector was invoked. -/
def runQueryModel (stored overrides : Json)
    (supplied : List (String × String)) (maxRetries : Nat)
    (op : Nat → FetchOutcome) :
    Except EngineError (FetchOutcome × Nat) × Nat :=
  match resolveQueryParameters stored overrides supplied with
  | .error e => (.error e, 0)
  | .ok _ =>
    let r := retryExec maxRetries op
    (.ok r, r.2)

/-! ## Fingerprint (modelled) -/

/-- Key-order relation used to normalize an object's fields. -/
def keyLe (a b : String × Json) : Prop := a.1 ≤ b.1

instance : DecidableRel keyLe := fun a b =>
  inferInstanceAs (Decidable (a.1 ≤ b.1))

instance : IsTotal (String × Json) keyLe :=
  ⟨fun a b => le_total a.1 b.1⟩

instance : IsTrans (String × Json) keyLe :=
  ⟨fun _ _ _ h h' => le_trans h h'⟩

/-- Sort an object's fields into nondecreasing key order. -/
def sortFields (fs : List (String × Json)) : List (String × Json) :=
  List.insertionSort keyLe fs

mutual

/-- Modelled from the spec: canonicalization of resolved parameters
before hashing (§3 Fingerprint: "insertion order of keys must be
normalized before hashing").  Every object's fields are sorted by key,
recursively. -/
def canonicalJson : Json → Json
  | .null => .null
  | .bool b => .bool b
  | .num n => .num n
  | .str s => .str s
  | .arr xs => .arr (canonList xs)
  | .obj fs => .obj (sortFields (canonFields fs))
termination_by j => sizeOf j
decreasing_by
  all_goals simp_wf

def canonList : List Json → List Json
  | [] => []
  | x :: xs => canonicalJson x :: canonList xs
termination_by xs => sizeOf xs
decreasing_by
  all_goals simp_wf
  all_goals omega

def canonFields : List (String × Json) → List (String × Json)
  | [] => []
  | (k, v) :: fs => (k, canonicalJson v) :: canonFields fs
termination_by fs => sizeOf fs
decreasing_by
  all_goals simp_wf
  all_goals omega

end

mutual

/-- A deterministic serialization of a `Json` value, standing for the
byte string fed to the digest. -/
def serializeJson : Json → String
  | .null => "null"
  | .bool b => toString b
  | .num n => toString n
  | .str s => "\"" ++ s ++ "\""
  | .arr xs => "[" ++ serializeList xs ++ "]"
  | .obj fs => "\x7b" ++ serializeFields fs ++ "\x7d"
termination_by j => sizeOf j
decreasing_by
  all_goals simp_wf

def serializeList : List Json → String
  | [] => ""
  | [x] => serializeJson x
  | x :: xs => serializeJson x ++ "," ++ serializeList xs
termination_by xs => sizeOf xs
decreasing_by
  all_goals simp_wf
  all_goals omega

def serializeFields : List (String × Json) → String
  | [] => ""
  | [(k, v)] => "\"" ++ k ++ "\":" ++ serializeJson v
  | (k, v) :: fs => "\"" ++ k ++ "\":" ++ serializeJson v ++ "," ++ serializeFields fs
termination_by fs => sizeOf fs
decreasing_by
  all_goals simp_wf
  all_goals omega

end

/-- Modelled from the spec: the cache fingerprint, a deterministic digest
of `(connectorSourceId, resolved parameters, format)` (§3).  The digest
input is the serialization of the canonicalized triple; since a hash of
equal byte strings is equal, the hash step itself is omitted without
loss for the determinism claim. -/
def fingerprint (connectorSourceId : String) (params : Json)
    (format : String) : String :=
  connectorSourceId ++ "|" ++ serializeJson (canonicalJson params) ++ "|" ++ format

/-! ## The query-run route (`POST /api/queries/:id/run` in `routes.ts`) -/

/-- `const useCache = req.body?.useCache !== false;` — `none` stands for
an absent body or an omitted field. -/
def resolveUseCache : Option Bool → Bool
  | some false => false
  | _ => true

/-- Argument list handed to the Python engine subprocess:
`[script, queryId]`, then `--no-cache` exactly when `useCache` resolved
to false, then the JSON-stringified overrides when present. -/
def runQueryArgs (queryId : String) (bodyUseCache : Option Bool)
    (parameterOverrides : Option Json) : List String :=
  ["run_query.py", queryId]
    ++ (if resolveUseCache bodyUseCache then [] else ["--no-cache"])
    ++ (match parameterOverrides with
        | some o => [serializeJson o]
        | none => [])

/-- What came back from the engine subprocess, as classified by the
route's `close` handler: no stdout at all, stdout that `JSON.parse`
rejects, or a parsed result object with its `success`/`error`/`data`
fields. -/
inductive EngineOutput where
  | empty
  | unparsable (raw : String)
  | parsed (success : Bool) (error : String) (data : Json)
deriving Repr

/-- The two subprocess events the route reacts to: the process closed
(with collected stdout/stderr), or spawning it failed outright. -/
inductive RunEvent where
  | closed (out : EngineOutput) (stderr : String)
  | spawnFailed (msg : String)
deriving Repr

/-- An HTTP response: status code and JSON body. -/
structure RouteResponse where
  status : Nat
  body : Json

/-- The parsed engine result rendered back into the response body. -/
def engineResultJson (success : Bool) (error : String) (data : Json) : Json :=
  .obj [("success", .bool success), ("error", .str error), ("data", data)]

/-- Translation of the `close`/`error` handlers of
`POST /api/queries/:id/run` (`src/server/routes.ts`): each event is
mapped to the response the route sends.  `queryDoc`/`resultDoc` stand
for the stored query and the persisted query-result document echoed in
the body. -/
def runRouteResponse (ev : RunEvent) (queryDoc resultDoc : Json) :
    RouteResponse :=
  match ev with
  | .spawnFailed _ =>
    ⟨500, .obj [("error", .str "Failed to execute Python script"),
                ("query", queryDoc), ("result", resultDoc)]⟩
  | .closed out stderr =>
    match out with
    | .unparsable _ =>
      ⟨500, .obj [("error", .str "Failed to parse query result"),
                  ("query", queryDoc), ("result", resultDoc)]⟩
    | .empty =>
      let msg := if stderr = "" then "No output from Python script" else stderr
      let pr : Json := .obj [("success", .bool false), ("error", .str msg)]
      ⟨500, .obj [("query", queryDoc), ("result", resultDoc),
                  ("pythonResult", pr), ("error", .str msg)]⟩
    | .parsed success err data =>
      let pr := engineResultJson success err data
      if success then
        ⟨200, .obj [("query", queryDoc), ("result", resultDoc),
                    ("pythonResult", pr)]⟩
      else
        ⟨500, .obj [("query", queryDoc), ("result", resultDoc),
                    ("pythonResult", pr), ("error", .str err)]⟩

/-- Does the response body carry `success: false`, either at top level
or inside its `pythonResult` field?  (The shape claim C4 asserts for
every failure mode.) -/
def bodySuccessFalse (body : Json) : Bool :=
  match body with
  | .obj fs =>
    match lookupField fs "success" with
    | some (.bool false) => true
    | _ =>
      match lookupField fs "pythonResult" with
      | some (.obj pfs) =>
        match lookupField pfs "success" with
        | some (.bool false) => true
        | _ => false
      | _ => false
  | _ => false

/-- The top-level `error` field of a response body, when it is a string. -/
def bodyErrorMsg (body : Json) : Option String :=
  match body with
  | .obj fs =>
    match lookupField fs "error" with
    | some (.str e) => some e
    | _ => none
  | _ => none

/-- The failure modes claim C4 enumerates: everything except a parsed
engine result reporting success. -/
def isFailureEvent : RunEvent → Bool
  | .closed (.parsed true _ _) _ => false
  | _ => true

/-! ## Connector storage defaults (`storage.ts` / `mongodb.ts`) -/

/-- JavaScript `v || d` on an optional numeric field: an absent field or
the (falsy) number 0 yield the default. -/
def resolveNumDefault (v : Option Nat) (d : Nat) : Nat :=
  match v with
  | none => d
  | some n => if n = 0 then d else n

/-- JavaScript `v || d` on an optional string field. -/
def resolveStrDefault (v : Option String) (d : String) : String :=
  match v with
  | none => d
  | some s => if s = "" then d else s

/-- A connector document as stored in the `connector_configs`
collection: the fields `transformConnector` reads (optional where the
schema allows absence). -/
structure ConnectorDoc where
  sourceId : String
  sourceName : String
  connectorType : String
  url : String
  apiKey : Option String
  formatField : Option String
  maxRetriesField : Option Nat
  retryDelayField : Option Nat
  dataPathField : Option String

/-- The resolved connector configuration handed to the rest of the
server. -/
structure Connector where
  sourceId : String
  sourceName : String
  connectorType : String
  url : String
  apiKey : Option String
  format : String
  maxRetries : Nat
  retryDelay : Nat
  dataPath : Option String

/-- Translation of `transformConnector(doc)` (`storage.ts`):
`maxRetries: doc.max_retries || 3`, `retryDelay: doc.retry_delay || 1`,
`format: doc.format || 'JSON'`. -/
def transformConnector (doc : ConnectorDoc) : Connector :=
  { sourceId := doc.sourceId
    sourceName := doc.sourceName
    connectorType := doc.connectorType
    url := doc.url
    apiKey := doc.apiKey
    format := resolveStrDefault doc.formatField "JSON"
    maxRetries := resolveNumDefault doc.maxRetriesField 3
    retryDelay := resolveNumDefault doc.retryDelayField 1
    dataPath := doc.dataPathField }

/-- The caller-supplied payload for creating a connector. -/
structure InsertConnector where
  sourceId : String
  sourceName : String
  connectorType : String
  url : String
  apiKey : Option String
  format : Option String
  maxRetries : Option Nat
  retryDelay : Option Nat
  dataPath : Option String

/-- Translation of `createConnector(connector)` (`storage.ts`): the
document is created with `max_retries: connector.maxRetries || 3`,
`retry_delay: connector.retryDelay || 1`, `format: connector.format ||
'JSON'`, then passed through `transformConnector`. -/
def createConnector (ins : InsertConnector) : Connector :=
  transformConnector
    { sourceId := ins.sourceId
      sourceName := ins.sourceName
      connectorType := ins.connectorType
      url := ins.url
      apiKey := ins.apiKey
      formatField := some (resolveStrDefault ins.format "JSON")
      maxRetriesField := some (resolveNumDefault ins.maxRetries 3)
      retryDelayField := some (resolveNumDefault ins.retryDelay 1)
      dataPathField := ins.dataPath }

/-! ## The connector-test route (`POST /api/connectors/:id/test`) -/

/-- How the upstream HEAD probe ended: a response with a status code, an
abort by the 10-second timer, or a network failure with the thrown
error's message. -/
inductive ProbeOutcome where
  | response (status : Nat) (statusText : String)
  | aborted
  | failed (msg : String)
deriving Repr, DecidableEq

/-- `response.ok` per the fetch specification: status in 200..299. -/
def fetchOk (status : Nat) : Bool :=
  200 ≤ status && status ≤ 299

/-- The JSON body of the connector-test response (the fields claim C10
is about). -/
structure TestResult where
  success : Bool
  error : Option String
  message : Option String
  status : Option Nat

/-- Translation of the probe `try`/`catch` of
`POST /api/connectors/:id/test` (`src/server/routes.ts`): a response
reports `success: response.ok || response.status === 405`; an abort and
a network error both produce `success: false` with a message
(`fetchError.message || "Failed to connect"`). -/
def testConnectorResponse (outcome : ProbeOutcome) : TestResult :=
  match outcome with
  | .response s st =>
    { success := fetchOk s || s == 405
      error := none
      status := some s
      message := some
        (if fetchOk s then
          "Connection successful (" ++ toString s ++ " " ++ st ++ ")"
        else if s == 405 then
          "Endpoint reachable (HEAD not allowed, but server responded)"
        else
          "Server responded with " ++ toString s ++ " " ++ st) }
  | .aborted =>
    { success := false
      error := some "Connection timeout after 10 seconds"
      status := none
      message := none }
  | .failed msg =>
    { success := false
      error := some (if msg = "" then "Failed to connect" else msg)
      status := none
      message := none }

/-! ## Helper lemmas -/

/-- The keys of a field list. -/
def keysOf (l : List (String × Json)) : List String := l.map Prod.fst

theorem lookupField_eq_none_iff (k : String) :
    ∀ l : List (String × Json), lookupField l k = none ↔ k ∉ keysOf l := by
  intro l
  induction l with
  | nil => simp [lookupField, keysOf]
  | cons p rest ih =>
    obtain ⟨k1, v1⟩ := p
    by_cases h : k1 = k
    · subst h
      simp [lookupField, keysOf]
    · simp [lookupField, h, keysOf, ih]
      tauto

theorem lookupField_setKey_self (k : String) (v : Json) :
    ∀ l tv, lookupField l k = some tv → lookupField (setKey l k v) k = some v := by
  intro l
  induction l with
  | nil => intro tv h; simp [lookupField] at h
  | cons p rest ih =>
    intro tv h
    obtain ⟨k1, v1⟩ := p
    by_cases hk : k1 = k
    · rw [setKey, if_pos hk, lookupField, if_pos hk]
    · rw [setKey, if_neg hk, lookupField, if_neg hk]
      rw [lookupField, if_neg hk] at h
      exact ih tv h

theorem lookupField_setKey_other (k k' : String) (v : Json) (hne : k' ≠ k) :
    ∀ l, lookupField (setKey l k v) k' = lookupField l k' := by
  intro l
  induction l with
  | nil => rfl
  | cons p rest ih =>
    obtain ⟨k1, v1⟩ := p
    by_cases hk : k1 = k
    · have hk1 : ¬ k1 = k' := fun h => hne (h ▸ hk)
      rw [setKey, if_pos hk, lookupField, if_neg hk1, lookupField, if_neg hk1]
      exact ih
    · rw [setKey, if_neg hk, lookupField, lookupField]
      by_cases hk' : k1 = k'
      · rw [if_pos hk', if_pos hk']
      · rw [if_neg hk', if_neg hk']
        exact ih

theorem lookupField_append (k : String) :
    ∀ l1 l2 : List (String × Json),
      lookupField (l1 ++ l2) k =
        (match lookupField l1 k with
         | some v => some v
         | none => lookupField l2 k) := by
  intro l1 l2
  induction l1 with
  | nil => simp [lookupField]
  | cons p rest ih =>
    obtain ⟨k1, v1⟩ := p
    by_cases hk : k1 = k
    · simp [lookupField, hk]
    · simp [lookupField, hk, ih]

/-! ## Claim C1: dataPath extraction -/

theorem pathWalk_none_of_none (segs : List String) :
    List.foldl (fun acc p => acc.bind fun c => getSeg c p)
      (none : Option Json) segs = none := by
  induction segs with
  | nil => rfl
  | cons p ps ih => simpa using ih

theorem extractGo_eq_rowsOf : ∀ (ps : List String) (cur : Json),
    extractGo cur ps = rowsOf (pathWalk cur ps) := by
  intro ps
  induction ps with
  | nil => intro cur; cases cur <;> rfl
  | cons p ps ih =>
    intro cur
    show extractGo cur (p :: ps) = rowsOf (pathWalk cur (p :: ps))
    cases h : getSeg cur p with
    | none =>
      simp [extractGo, pathWalk, h, pathWalk_none_of_none, rowsOf]
    | some nxt =>
      simp [extractGo, pathWalk, h]
      exact ih nxt

/-- C1 counterexample input: `{"a": [[7]]}`. -/
def c1doc : Json := .obj [("a", .arr [.arr [.num 7]])]

/-- Claim C1, as stated, is false: on the document `{"a": [[7]]}` with
`dataPath` `"a.0"` the segment `"0"` is not a mapping key of any value
on the path (the mapping-keys-only walk fails), yet `extractDataByPath`
does not return the empty row list — JavaScript's `in` also exposes
array indices, so the code descends into the array and returns `[7]`. -/
theorem c1_counterexample :
    mappingWalk c1doc ["a", "0"] = none ∧
    splitDot "a.0" = ["a", "0"] ∧
    extractDataByPath c1doc "a.0" = [Json.num 7] ∧
    [Json.num 7] ≠ ([] : List Json) := by
  refine ⟨?_, rfl, ?_, by simp⟩
  · simp [mappingWalk, mappingStep, c1doc, lookupField]
  · simp [extractDataByPath, jsFalsy, splitDot, splitDotAux, extractGo,
      getSeg, lookupField, parseIndex, digitsAux, c1doc]

/-- Claim C1 (amended): extraction never raises; an empty or falsy input
yields the empty table, and otherwise the result is exactly the list
reached by walking the dotted path through mapping keys *and array
indices* — the empty table whenever any segment fails to resolve or the
final value is not a list, and exactly that list otherwise. -/
theorem c1_extract_by_path (data : Json) (path : String) :
    (path = "" ∨ jsFalsy data = true → extractDataByPath data path = []) ∧
    (path ≠ "" → jsFalsy data = false →
      extractDataByPath data path = rowsOf (pathWalk data (splitDot path))) := by
  constructor
  · rintro (h | h) <;> simp [extractDataByPath, h]
  · intro h1 h2
    rw [extractDataByPath, if_neg (by simp [h1, h2])]
    exact extractGo_eq_rowsOf _ _

/-- Witness instantiating `c1_extract_by_path` at concrete inputs. -/
theorem c1_extract_by_path_witness :
    extractDataByPath (Json.obj [("rows", Json.arr [Json.num 1])]) "rows"
      = rowsOf (pathWalk (Json.obj [("rows", Json.arr [Json.num 1])]) (splitDot "rows")) ∧
    extractDataByPath (Json.obj [("rows", Json.arr [Json.num 1])]) "" = [] :=
  ⟨(c1_extract_by_path (Json.obj [("rows", Json.arr [Json.num 1])]) "rows").2
      (by decide) rfl,
   (c1_extract_by_path (Json.obj [("rows", Json.arr [Json.num 1])]) "").1
      (Or.inl rfl)⟩

/-! ## Claim C2: deep merge of overrides -/

theorem mergeFields_lookup_not_mem (k : String) :
    ∀ (sfs : List (String × Json)) (acc : List (String × Json)),
      k ∉ keysOf sfs →
      lookupField (mergeFields acc sfs) k = lookupField acc k := by
  intro sfs
  induction sfs with
  | nil => intro acc _; simp [mergeFields]
  | cons p rest ih =>
    intro acc hk
    obtain ⟨k1, sv⟩ := p
    have hne : k ≠ k1 := by
      intro h; exact hk (by simp [keysOf, h])
    have hrest : k ∉ keysOf rest := by
      intro h; exact hk (by simp [keysOf] at h ⊢; exact Or.inr h)
    cases h : lookupField acc k1 with
    | some tv =>
      by_cases hc : typeofObjectNotArray tv && typeofObjectNotArray sv
      · rw [mergeFields, h]
        simp only [hc, if_true]
        rw [ih _ hrest, lookupField_setKey_other _ _ _ hne]
      · rw [mergeFields, h]
        simp only [hc, if_false, Bool.false_eq_true]
        rw [ih _ hrest, lookupField_setKey_other _ _ _ hne]
    | none =>
      rw [mergeFields, h, ih _ hrest, lookupField_append]
      simp only [lookupField, if_neg (Ne.symm hne)]
      cases lookupField acc k <;> rfl

theorem mergeFields_lookup_mem (k : String) (sv : Json) :
    ∀ (sfs : List (String × Json)) (acc : List (String × Json)),
      (keysOf sfs).Nodup → (k, sv) ∈ sfs →
      lookupField (mergeFields acc sfs) k =
        some (mergeStep (lookupField acc k) sv) := by
  intro sfs
  induction sfs with
  | nil => intro acc _ h; simp at h
  | cons p rest ih =>
    intro acc hnd hmem
    obtain ⟨k1, sv1⟩ := p
    have hnd' : (k1 :: keysOf rest).Nodup := hnd
    have hnd1 : k1 ∉ keysOf rest := (List.nodup_cons.mp hnd').1
    have hndr : (keysOf rest).Nodup := (List.nodup_cons.mp hnd').2
    rcases List.mem_cons.mp hmem with heq | hmemr
    · cases heq
      cases h : lookupField acc k with
      | some tv =>
        by_cases hc : typeofObjectNotArray tv && typeofObjectNotArray sv
        · rw [mergeFields, h]
          simp only [hc, if_true]
          rw [mergeFields_lookup_not_mem _ _ _ hnd1,
            lookupField_setKey_self _ _ _ _ h]
          simp [mergeStep, hc]
        · rw [mergeFields, h]
          simp only [hc, if_false, Bool.false_eq_true]
          rw [mergeFields_lookup_not_mem _ _ _ hnd1,
            lookupField_setKey_self _ _ _ _ h]
          simp [mergeStep, hc]
      | none =>
        rw [mergeFields, h]
        rw [mergeFields_lookup_not_mem _ _ _ hnd1, lookupField_append, h]
        simp [lookupField, mergeStep]
    · have hkr : k ∈ keysOf rest := by
        simpa [keysOf] using List.mem_map_of_mem Prod.fst hmemr
      have hne : k ≠ k1 := fun h => hnd1 (h ▸ hkr)
      cases h : lookupField acc k1 with
      | some tv =>
        by_cases hc : typeofObjectNotArray tv && typeofObjectNotArray sv1
        · rw [mergeFields, h]
          simp only [hc, if_true]
          rw [ih _ hndr hmemr, lookupField_setKey_other _ _ _ hne]
        · rw [mergeFields, h]
          simp only [hc, if_false, Bool.false_eq_true]
          rw [ih _ hndr hmemr, lookupField_setKey_other _ _ _ hne]
      | none =>
        rw [mergeFields, h]
        rw [ih _ hndr hmemr, lookupField_append]
        cases hk : lookupField acc k <;> simp [lookupField, Ne.symm hne, hk]

/-- The value stored under a key of an object value. -/
def objLookup : Json → String → Option Json
  | .obj fs, k => lookupField fs k
  | _, _ => none

theorem deepMerge_null (t : Json) : deepMerge t Json.null = t := by
  simp [deepMerge]

theorem deepMerge_obj (tfs sfs : List (String × Json)) :
    deepMerge (Json.obj tfs) (Json.obj sfs) = Json.obj (mergeFields tfs sfs) := by
  simp [deepMerge]

/-- Claim C2, as stated, is false on a `null` override value: merging
`{"a": null}` onto `{"a": {"x": 1}}` leaves the stored mapping in place
instead of replacing it wholesale with the scalar `null`, because
JavaScript's `typeof null === 'object'` routes `null` into the recursive
branch, where `deepMerge(target, null)` returns the target. -/
theorem c2_counterexample :
    deepMerge (Json.obj [("a", Json.obj [("x", Json.num 1)])]) (Json.obj [("a", Json.null)])
      = Json.obj [("a", Json.obj [("x", Json.num 1)])] ∧
    deepMerge (Json.obj [("a", Json.obj [("x", Json.num 1)])]) (Json.obj [("a", Json.null)])
      ≠ Json.obj [("a", Json.null)] := by
  constructor
  · simp [deepMerge, mergeFields, lookupField, setKey, typeofObjectNotArray]
  · simp [deepMerge, mergeFields, lookupField, setKey, typeofObjectNotArray]

/-- Claim C2 (amended): per key of the merged object — a key absent from
the override keeps the stored value; an override value that fails the
`typeof === 'object' && !Array.isArray` test (any non-null scalar, or an
array) replaces the stored value wholesale; a mapping override value
meeting a mapping stored value recurses; and — the amendment — a `null`
override value leaves an object-like stored value untouched. -/
theorem c2_deep_merge (tfs sfs : List (String × Json)) (k : String) :
    (lookupField sfs k = none →
      objLookup (deepMerge (Json.obj tfs) (Json.obj sfs)) k = lookupField tfs k) ∧
    (∀ sv, (keysOf sfs).Nodup → (k, sv) ∈ sfs → typeofObjectNotArray sv = false →
      objLookup (deepMerge (Json.obj tfs) (Json.obj sfs)) k = some sv) ∧
    (∀ svf tvf, (keysOf sfs).Nodup → (k, Json.obj svf) ∈ sfs →
      lookupField tfs k = some (Json.obj tvf) →
      objLookup (deepMerge (Json.obj tfs) (Json.obj sfs)) k
        = some (deepMerge (Json.obj tvf) (Json.obj svf))) ∧
    (∀ tv, (keysOf sfs).Nodup → (k, Json.null) ∈ sfs →
      lookupField tfs k = some tv → typeofObjectNotArray tv = true →
      objLookup (deepMerge (Json.obj tfs) (Json.obj sfs)) k = some tv) := by
  rw [deepMerge_obj]
  refine ⟨?_, ?_, ?_, ?_⟩
  · intro h
    exact mergeFields_lookup_not_mem _ _ _ ((lookupField_eq_none_iff _ _).mp h)
  · intro sv hnd hmem hsv
    rw [show objLookup (Json.obj (mergeFields tfs sfs)) k
        = lookupField (mergeFields tfs sfs) k from rfl]
    rw [mergeFields_lookup_mem _ _ _ _ hnd hmem]
    cases h : lookupField tfs k <;> simp [mergeStep, hsv]
  · intro svf tvf hnd hmem h
    rw [show objLookup (Json.obj (mergeFields tfs sfs)) k
        = lookupField (mergeFields tfs sfs) k from rfl]
    rw [mergeFields_lookup_mem _ _ _ _ hnd hmem, h]
    simp [mergeStep, typeofObjectNotArray]
  · intro tv hnd hmem h htv
    rw [show objLookup (Json.obj (mergeFields tfs sfs)) k
        = lookupField (mergeFields tfs sfs) k from rfl]
    rw [mergeFields_lookup_mem _ _ _ _ hnd hmem, h]
    simp [mergeStep, htv, deepMerge_null,
      show typeofObjectNotArray Json.null = true from rfl]

/-- Witness instantiating every part of `c2_deep_merge` concretely. -/
theorem c2_deep_merge_witness :
    objLookup (deepMerge (Json.obj [("a", Json.num 1)]) (Json.obj [("b", Json.num 2)])) "a"
      = lookupField [("a", Json.num 1)] "a" ∧
    objLookup (deepMerge (Json.obj [("a", Json.num 1)]) (Json.obj [("a", Json.str "x")])) "a"
      = some (Json.str "x") ∧
    objLookup (deepMerge (Json.obj [("a", Json.obj [("x", Json.num 1)])])
        (Json.obj [("a", Json.obj [("y", Json.num 2)])])) "a"
      = some (deepMerge (Json.obj [("x", Json.num 1)]) (Json.obj [("y", Json.num 2)])) ∧
    objLookup (deepMerge (Json.obj [("a", Json.obj [("x", Json.num 1)])])
        (Json.obj [("a", Json.null)])) "a"
      = some (Json.obj [("x", Json.num 1)]) :=
  ⟨(c2_deep_merge [("a", Json.num 1)] [("b", Json.num 2)] "a").1 rfl,
   (c2_deep_merge [("a", Json.num 1)] [("a", Json.str "x")] "a").2.1
     (Json.str "x") (by simp [keysOf]) (by simp) rfl,
   (c2_deep_merge [("a", Json.obj [("x", Json.num 1)])]
       [("a", Json.obj [("y", Json.num 2)])] "a").2.2.1
     [("y", Json.num 2)] [("x", Json.num 1)] (by simp [keysOf]) (by simp) rfl,
   (c2_deep_merge [("a", Json.obj [("x", Json.num 1)])]
       [("a", Json.null)] "a").2.2.2
     (Json.obj [("x", Json.num 1)]) (by simp [keysOf]) (by simp) rfl rfl⟩

/-! ## Claim C3: unresolved placeholders are a ParameterError -/

mutual

theorem substitutePlaceholders_nil : ∀ j, substitutePlaceholders [] j = j
  | .null => by simp [substitutePlaceholders]
  | .bool _ => by simp [substitutePlaceholders]
  | .num _ => by simp [substitutePlaceholders]
  | .str _ => by simp [substitutePlaceholders, substStr]
  | .arr xs => by
    rw [show substitutePlaceholders [] (Json.arr xs) = Json.arr (substList [] xs) by
      simp [substitutePlaceholders]]
    rw [substList_nil xs]
  | .obj fs => by
    rw [show substitutePlaceholders [] (Json.obj fs) = Json.obj (substFields [] fs) by
      simp [substitutePlaceholders]]
    rw [substFields_nil fs]
termination_by j => sizeOf j
decreasing_by
  all_goals simp_wf

theorem substList_nil : ∀ xs, substList [] xs = xs
  | [] => by simp [substList]
  | x :: xs => by
    rw [show substList [] (x :: xs)
        = substitutePlaceholders [] x :: substList [] xs by simp [substList]]
    rw [substitutePlaceholders_nil x, substList_nil xs]
termination_by xs => sizeOf xs
decreasing_by
  all_goals simp_wf
  all_goals omega

theorem substFields_nil : ∀ fs, substFields [] fs = fs
  | [] => by simp [substFields]
  | (k, v) :: fs => by
    rw [show substFields [] ((k, v) :: fs)
        = (k, substitutePlaceholders [] v) :: substFields [] fs by simp [substFields]]
    rw [substitutePlaceholders_nil v, substFields_nil fs]
termination_by fs => sizeOf fs
decreasing_by
  all_goals simp_wf
  all_goals omega

end

/-- Claim C3: (i) with no caller-supplied values, any parameter map whose
string leaves still contain a placeholder token makes the engine's
parameter resolution report a `ParameterError` naming one of those
placeholders; (ii) parameters the engine accepts never contain a literal
placeholder token (nothing is "silently left"); (iii) a
`ParameterError` aborts before the connector is ever invoked, so it is
not retried. -/
theorem c3_parameter_error :
    (∀ stored : Json, jsonTokens stored ≠ [] →
      ∃ name, name ∈ jsonTokens stored ∧
        resolveQueryParameters stored Json.null [] = .error (.ParameterError name)) ∧
    (∀ stored overrides supplied out,
      resolveQueryParameters stored overrides supplied = .ok out →
      jsonTokens out = []) ∧
    (∀ stored overrides supplied maxR op e,
      resolveQueryParameters stored overrides supplied = .error e →
      (runQueryModel stored overrides supplied maxR op).2 = 0) := by
  refine ⟨?_, ?_, ?_⟩
  · intro stored h
    cases htk : jsonTokens stored with
    | nil => exact absurd htk h
    | cons n rest =>
      refine ⟨n, by simp [htk], ?_⟩
      simp [resolveQueryParameters, deepMerge_null, substitutePlaceholders_nil, htk]
  · intro stored overrides supplied out h
    rw [resolveQueryParameters] at h
    revert h
    cases htk : jsonTokens (substitutePlaceholders supplied (deepMerge stored overrides)) with
    | nil =>
      intro h
      simp at h
      rw [← h]
      exact htk
    | cons n rest =>
      intro h
      simp at h
  · intro stored overrides supplied maxR op e h
    simp [runQueryModel, h]

/-- Witness for `c3_parameter_error`, at the specification's own example
`{"state": "\x7bstate_code\x7d"}` with no value supplied. -/
theorem c3_parameter_error_witness :
    jsonTokens (Json.obj [("state", Json.str "\x7bstate_code\x7d")]) = ["state_code"] ∧
    (∃ name, name ∈ jsonTokens (Json.obj [("state", Json.str "\x7bstate_code\x7d")]) ∧
      resolveQueryParameters (Json.obj [("state", Json.str "\x7bstate_code\x7d")])
          Json.null []
        = .error (.ParameterError name)) := by
  have htok : jsonTokens (Json.obj [("state", Json.str "\x7bstate_code\x7d")])
      = ["state_code"] := by
    simp [jsonTokens, jsonTokensFields, scanTokens, lbrace, rbrace]
  exact ⟨htok,
    c3_parameter_error.1 (Json.obj [("state", Json.str "\x7bstate_code\x7d")])
      (by rw [htok]; simp)⟩

/-! ## Claim C4: failure modes of the query-run route -/

/-- Claim C4, as stated, is false: unparsable engine output is one of its
enumerated failure modes, yet the route's response for it is a 500 with
an error message only — no `success: false` appears anywhere in the body
(neither at top level nor under `pythonResult`). -/
theorem c4_counterexample :
    isFailureEvent (RunEvent.closed (.unparsable "not json") "") = true ∧
    (runRouteResponse (RunEvent.closed (.unparsable "not json") "") Json.null Json.null).status
      = 500 ∧
    bodyErrorMsg (runRouteResponse (RunEvent.closed (.unparsable "not json") "")
        Json.null Json.null).body = some "Failed to parse query result" ∧
    bodySuccessFalse (runRouteResponse (RunEvent.closed (.unparsable "not json") "")
        Json.null Json.null).body = false := by
  refine ⟨rfl, rfl, ?_, ?_⟩ <;>
    simp [runRouteResponse, bodyErrorMsg, bodySuccessFalse, lookupField]

/-- Claim C4 (amended): every failure mode of the run route — an
engine-reported failure, empty engine output, unparsable engine output,
or a failure to start the engine — produces a structured 500 JSON
response with an `error` message (no exception escapes: each event maps
to a response); the engine-reported-failure and empty-output modes
additionally embed the engine result carrying `success: false`, while
the unparsable-output and spawn-failure responses carry only the fixed
error message, with no `success` field. -/
theorem c4_run_route (ev : RunEvent) (q r : Json) :
    (isFailureEvent ev = true →
      (runRouteResponse ev q r).status = 500 ∧
      bodyErrorMsg (runRouteResponse ev q r).body ≠ none) ∧
    (∀ err data stderr, ev = RunEvent.closed (.parsed false err data) stderr →
      bodySuccessFalse (runRouteResponse ev q r).body = true) ∧
    (∀ stderr, ev = RunEvent.closed .empty stderr →
      bodySuccessFalse (runRouteResponse ev q r).body = true) ∧
    (∀ err data stderr, ev = RunEvent.closed (.parsed true err data) stderr →
      (runRouteResponse ev q r).status = 200) := by
  refine ⟨?_, ?_, ?_, ?_⟩
  · intro hfail
    cases ev with
    | spawnFailed msg =>
      exact ⟨rfl, by simp [runRouteResponse, bodyErrorMsg, lookupField]⟩
    | closed out stderr =>
      cases out with
      | empty =>
        refine ⟨rfl, ?_⟩
        simp [runRouteResponse, bodyErrorMsg, lookupField]
      | unparsable raw =>
        exact ⟨rfl, by simp [runRouteResponse, bodyErrorMsg, lookupField]⟩
      | parsed success err data =>
        cases success with
        | false =>
          refine ⟨rfl, ?_⟩
          simp [runRouteResponse, bodyErrorMsg, lookupField, engineResultJson]
        | true => simp [isFailureEvent] at hfail
  · intro err data stderr hev
    subst hev
    simp [runRouteResponse, bodySuccessFalse, lookupField, engineResultJson]
  · intro stderr hev
    subst hev
    simp [runRouteResponse, bodySuccessFalse, lookupField]
  · intro err data stderr hev
    subst hev
    rfl

/-- Witness instantiating `c4_run_route` at concrete events. -/
theorem c4_run_route_witness :
    ((runRouteResponse (RunEvent.spawnFailed "ENOENT") Json.null Json.null).status = 500 ∧
      bodyErrorMsg (runRouteResponse (RunEvent.spawnFailed "ENOENT")
          Json.null Json.null).body ≠ none) ∧
    bodySuccessFalse (runRouteResponse
        (RunEvent.closed (.parsed false "upstream 500" Json.null) "")
        Json.null Json.null).body = true ∧
    bodySuccessFalse (runRouteResponse (RunEvent.closed .empty "boom")
        Json.null Json.null).body = true ∧
    (runRouteResponse (RunEvent.closed (.parsed true "" Json.null) "")
        Json.null Json.null).status = 200 :=
  ⟨(c4_run_route (RunEvent.spawnFailed "ENOENT") Json.null Json.null).1 rfl,
   (c4_run_route (RunEvent.closed (.parsed false "upstream 500" Json.null) "")
       Json.null Json.null).2.1 "upstream 500" Json.null "" rfl,
   (c4_run_route (RunEvent.closed .empty "boom") Json.null Json.null).2.2.1 "boom" rfl,
   (c4_run_route (RunEvent.closed (.parsed true "" Json.null) "")
       Json.null Json.null).2.2.2 "" Json.null "" rfl⟩

/-! ## Claim C6: retry bound -/

theorem retryExecAux_count (op : Nat → FetchOutcome)
    (h : ∀ i, retryableFail (op i) = true) :
    ∀ r a, (retryExecAux op a r).2 = a + r + 1 := by
  intro r
  induction r with
  | zero =>
    intro a
    have ha := h a
    cases hop : op a with
    | success d => rw [hop] at ha; simp [retryableFail] at ha
    | failure rb msg =>
      cases rb with
      | false => rw [hop] at ha; simp [retryableFail] at ha
      | true => simp [retryExecAux, hop]
  | succ r ih =>
    intro a
    have ha := h a
    cases hop : op a with
    | success d => rw [hop] at ha; simp [retryableFail] at ha
    | failure rb msg =>
      cases rb with
      | false => rw [hop] at ha; simp [retryableFail] at ha
      | true =>
        have hstep : retryExecAux op a (r + 1) = retryExecAux op (a + 1) r := by
          rw [retryExecAux, hop]
        rw [hstep, ih (a + 1)]
        omega

/-- Claim C6: an operation that fails retryably on every attempt is
invoked exactly `maxRetries + 1` times before the policy returns the
failure, and an operation that fails non-retryably on the first attempt
is invoked exactly once. -/
theorem c6_retry_bound (maxRetries : Nat) (op opNR : Nat → FetchOutcome)
    (hAll : ∀ i, retryableFail (op i) = true)
    (msg : String) (hFirst : opNR 0 = .failure false msg) :
    (retryExec maxRetries op).2 = maxRetries + 1 ∧
    retryExec maxRetries opNR = (.failure false msg, 1) := by
  constructor
  · have := retryExecAux_count op hAll maxRetries 0
    simpa [retryExec] using this
  · cases maxRetries <;> simp [retryExec, retryExecAux, hFirst]

/-- Witness for `c6_retry_bound` at `maxRetries = 3` with constantly
failing operations. -/
theorem c6_retry_bound_witness :
    (retryExec 3 (fun _ => .failure true "upstream timeout")).2 = 4 ∧
    retryExec 3 (fun _ => .failure false "bad request")
      = (.failure false "bad request", 1) :=
  c6_retry_bound 3 (fun _ => .failure true "upstream timeout")
    (fun _ => .failure false "bad request") (fun _ => rfl) "bad request" rfl

/-! ## Claim C7: useCache default -/

/-- Claim C7: omitting `useCache` builds exactly the same engine
invocation as passing `useCache = true`; `useCache` resolves to `false`
(and only then is `--no-cache` appended) precisely when the caller
explicitly supplies `false`; and the invocation agrees with the
`useCache = true` one exactly when the flag was not appended. -/
theorem c7_use_cache_default (qid : String) (o : Option Json) (u : Option Bool) :
    (runQueryArgs qid none o = runQueryArgs qid (some true) o) ∧
    (resolveUseCache u = false ↔ u = some false) ∧
    (runQueryArgs qid u o = runQueryArgs qid (some true) o ↔
      resolveUseCache u = true) := by
  refine ⟨rfl, ?_, ?_⟩
  · cases u with
    | none => simp [resolveUseCache]
    | some b => cases b <;> simp [resolveUseCache]
  · constructor
    · intro h
      cases hu : resolveUseCache u with
      | true => rfl
      | false =>
        exfalso
        have hlen := congrArg List.length h
        simp only [runQueryArgs.eq_def] at hlen
        rw [hu] at hlen
        cases o <;> simp [resolveUseCache] at hlen
    · intro h
      simp [runQueryArgs, h, show resolveUseCache (some true) = true from rfl]

/-- Witness applying `c7_use_cache_default` concretely. -/
theorem c7_use_cache_default_witness :
    runQueryArgs "census_pop" none none = runQueryArgs "census_pop" (some true) none ∧
    resolveUseCache (some false) = false ∧
    (runQueryArgs "census_pop" (some true) none
      = runQueryArgs "census_pop" (some true) none) :=
  ⟨(c7_use_cache_default "census_pop" none (some false)).1,
   (c7_use_cache_default "census_pop" none (some false)).2.1.mpr rfl,
   (c7_use_cache_default "census_pop" none (some true)).2.2.mpr rfl⟩

/-! ## Claim C9: retry defaults -/

/-- Claim C9: a connector document read without stored retry settings
resolves to `maxRetries = 3` and `retryDelay = 1`, and a connector
created without explicit retry settings resolves (and stores) the same
defaults. -/
theorem c9_retry_defaults :
    (∀ doc : ConnectorDoc, doc.maxRetriesField = none → doc.retryDelayField = none →
      (transformConnector doc).maxRetries = 3 ∧ (transformConnector doc).retryDelay = 1) ∧
    (∀ ins : InsertConnector, ins.maxRetries = none → ins.retryDelay = none →
      (createConnector ins).maxRetries = 3 ∧ (createConnector ins).retryDelay = 1) := by
  constructor
  · intro doc h1 h2
    simp [transformConnector, resolveNumDefault, h1, h2]
  · intro ins h1 h2
    simp [createConnector, transformConnector, resolveNumDefault, h1, h2]

/-- Witness for `c9_retry_defaults` on a concrete settings-free
connector. -/
theorem c9_retry_defaults_witness :
    (transformConnector
        ⟨"nass_usda", "USDA NASS", "REST", "https://api.example.gov",
          none, none, none, none, none⟩).maxRetries = 3 ∧
    (createConnector
        ⟨"nass_usda", "USDA NASS", "REST", "https://api.example.gov",
          none, none, none, none, none⟩).retryDelay = 1 :=
  ⟨(c9_retry_defaults.1
      ⟨"nass_usda", "USDA NASS", "REST", "https://api.example.gov",
        none, none, none, none, none⟩ rfl rfl).1,
   (c9_retry_defaults.2
      ⟨"nass_usda", "USDA NASS", "REST", "https://api.example.gov",
        none, none, none, none, none⟩ rfl rfl).2⟩

/-! ## Claim C10: connector-test endpoint -/

/-- Claim C10: a probe response yields `success: true` exactly when the
status is 2xx (`response.ok`) or exactly 405; a timeout abort and a
network failure both yield `success: false` together with a nonempty
human-readable error message — each probe outcome maps to a response,
never a thrown exception. -/
theorem c10_test_connector :
    (∀ s st, (testConnectorResponse (.response s st)).success = true ↔
      ((200 ≤ s ∧ s ≤ 299) ∨ s = 405)) ∧
    ((testConnectorResponse .aborted).success = false ∧
      (testConnectorResponse .aborted).error
        = some "Connection timeout after 10 seconds") ∧
    (∀ m, (testConnectorResponse (.failed m)).success = false ∧
      ∃ e, (testConnectorResponse (.failed m)).error = some e ∧ e ≠ "") := by
  refine ⟨?_, ⟨rfl, rfl⟩, ?_⟩
  · intro s st
    simp [testConnectorResponse, fetchOk]
  · intro m
    refine ⟨rfl, ?_⟩
    by_cases hm : m = ""
    · exact ⟨"Failed to connect", by simp [testConnectorResponse, hm], by simp⟩
    · exact ⟨m, by simp [testConnectorResponse, hm], hm⟩

/-- Witness applying `c10_test_connector` at concrete probe outcomes. -/
theorem c10_test_connector_witness :
    (testConnectorResponse (.response 405 "Method Not Allowed")).success = true ∧
    (testConnectorResponse (.failed "getaddrinfo ENOTFOUND")).success = false :=
  ⟨(c10_test_connector.1 405 "Method Not Allowed").mpr (Or.inr rfl),
   (c10_test_connector.2.2 "getaddrinfo ENOTFOUND").1⟩

/-! ## Claim C8: placeholder substitution -/

theorem isPrefixOf_append_self : ∀ l t : List Char, l.isPrefixOf (l ++ t) = true := by
  intro l t
  induction l with
  | nil => simp [List.isPrefixOf]
  | cons c cs ih => simp [List.isPrefixOf, ih]

theorem tokenOf_ne_nil (name : String) : tokenOf name ≠ [] := by
  simp [tokenOf]

theorem expandDollar_of_not_dollar (m b a : List Char) :
    ∀ rep, ('$' : Char) ∉ rep → expandDollar m b a rep = rep := by
  intro rep
  induction rep with
  | nil => intro _; simp [expandDollar]
  | cons c rest ih =>
    intro h
    have hc : ¬ c = '$' := fun hc => h (hc ▸ List.mem_cons_self c rest)
    have hrest : ('$' : Char) ∉ rest := fun hm => h (List.mem_cons_of_mem c hm)
    rw [expandDollar.eq_def]
    simp only [if_neg hc]
    rw [ih hrest]

theorem jsReplaceGo_nil (pat rep pre : List Char) : jsReplaceGo pat rep pre [] = [] := by
  simp [jsReplaceGo]

theorem jsReplaceGo_no_match (pat rep : List Char) :
    ∀ s pre, containsPat pat s = false → jsReplaceGo pat rep pre s = s := by
  intro s
  induction s with
  | nil => intro pre _; exact jsReplaceGo_nil pat rep pre
  | cons c rest ih =>
    intro pre h
    rw [containsPat, Bool.or_eq_false_iff] at h
    rw [jsReplaceGo, dif_neg]
    · rw [ih _ h.2]
    · rintro ⟨_, hpre⟩
      rw [h.1] at hpre
      exact Bool.false_ne_true hpre

theorem jsReplaceGo_head_match (pat rep tail pre : List Char) (h : pat ≠ []) :
    jsReplaceGo pat rep pre (pat ++ tail)
      = expandDollar pat pre tail rep ++ jsReplaceGo pat rep (pre ++ pat) tail := by
  cases hp : pat with
  | nil => exact absurd hp h
  | cons c cs =>
    subst hp
    rw [show (c :: cs) ++ tail = c :: (cs ++ tail) from rfl]
    rw [jsReplaceGo]
    have hcond : (c :: cs) ≠ [] ∧ (c :: cs).isPrefixOf (c :: (cs ++ tail)) = true := by
      refine ⟨h, ?_⟩
      rw [show c :: (cs ++ tail) = (c :: cs) ++ tail from rfl]
      exact isPrefixOf_append_self _ _
    rw [dif_pos hcond]
    rw [show c :: (cs ++ tail) = (c :: cs) ++ tail from rfl, List.drop_left]

theorem jsReplaceGo_pre_of_not_dollar (pat rep : List Char)
    (hrep : ('$' : Char) ∉ rep) :
    ∀ (n : Nat) (s : List Char), s.length ≤ n → ∀ pre pre',
      jsReplaceGo pat rep pre s = jsReplaceGo pat rep pre' s := by
  intro n
  induction n with
  | zero =>
    intro s hs pre pre'
    have hnil : s = [] := List.eq_nil_of_length_eq_zero (Nat.le_zero.mp hs)
    subst hnil
    rw [jsReplaceGo_nil, jsReplaceGo_nil]
  | succ n ih =>
    intro s hs pre pre'
    cases s with
    | nil => rw [jsReplaceGo_nil, jsReplaceGo_nil]
    | cons c rest =>
      simp only [List.length_cons] at hs
      by_cases hcond : pat ≠ [] ∧ pat.isPrefixOf (c :: rest) = true
      · rw [jsReplaceGo, dif_pos hcond, jsReplaceGo, dif_pos hcond]
        rw [expandDollar_of_not_dollar _ _ _ _ hrep,
          expandDollar_of_not_dollar _ _ _ _ hrep]
        congr 1
        refine ih _ ?_ _ _
        have hp : pat.length ≠ 0 := fun hl => hcond.1 (List.eq_nil_of_length_eq_zero hl)
        simp only [List.length_drop, List.length_cons]
        omega
      · rw [jsReplaceGo, dif_neg hcond, jsReplaceGo, dif_neg hcond]
        congr 1
        exact ih _ (by omega) _ _

theorem jsReplaceGo_pre_irrelevant (pat rep : List Char)
    (hrep : ('$' : Char) ∉ rep) (s pre pre' : List Char) :
    jsReplaceGo pat rep pre s = jsReplaceGo pat rep pre' s :=
  jsReplaceGo_pre_of_not_dollar pat rep hrep s.length s le_rfl pre pre'

theorem jsReplaceAll_token_of_not_dollar (name v : String) (tail : List Char)
    (hrep : ('$' : Char) ∉ v.data) :
    jsReplaceAll (tokenOf name) v.data (tokenOf name ++ tail)
      = v.data ++ jsReplaceAll (tokenOf name) v.data tail := by
  rw [jsReplaceAll, jsReplaceGo_head_match _ _ _ _ (tokenOf_ne_nil name)]
  rw [expandDollar_of_not_dollar _ _ _ _ hrep]
  congr 1
  exact jsReplaceGo_pre_irrelevant _ _ hrep tail _ []

/-- Claim C8, as stated, is false: the source inserts the supplied value
through JavaScript `String.replace`, which expands `$` patterns in the
replacement, so the value is not always inserted verbatim — supplying
`"$$"` for `v` turns the leaf `"\x7bv\x7d"` into `"$"` (not `"$$"`), and
supplying `"a$&b"` re-inserts the matched token, leaving the literal
placeholder in the output. -/
theorem c8_counterexample :
    substitutePlaceholders [("v", "$$")] (Json.str "\x7bv\x7d") = Json.str "$" ∧
    ("$" : String) ≠ "$$" ∧
    substitutePlaceholders [("v", "a$&b")] (Json.str "\x7bv\x7d")
      = Json.str "a\x7bv\x7db" := by
  refine ⟨?_, by decide, ?_⟩ <;>
    simp [substitutePlaceholders, substStr, jsReplaceAll, jsReplaceGo, expandDollar,
      tokenOf, lbrace, rbrace, backquoteChar, squoteChar, List.isPrefixOf]

/-- Claim C8 (amended): substitution leaves non-string leaves unchanged,
maps structurally through arrays and nested mappings, and globally
replaces each supplied `\x7bname\x7d` token in string leaves by the
supplied value as processed by JavaScript replacement-pattern
expansion; in particular a value containing no `$` is inserted verbatim
at each leading occurrence (scanning continuing behind it), a string
without the token is untouched, and the specification's own example
`\x7b"state": "\x7bstate_code\x7d"\x7d` with `state_code = "06"`
resolves to `\x7b"state": "06"\x7d`. -/
theorem c8_substitution :
    (∀ vals n, substitutePlaceholders vals (Json.num n) = Json.num n) ∧
    (∀ vals b, substitutePlaceholders vals (Json.bool b) = Json.bool b) ∧
    (∀ vals, substitutePlaceholders vals Json.null = Json.null) ∧
    (∀ vals xs, substitutePlaceholders vals (Json.arr xs) = Json.arr (substList vals xs)) ∧
    (∀ vals fs, substitutePlaceholders vals (Json.obj fs) = Json.obj (substFields vals fs)) ∧
    (∀ vals k j fs, substFields vals ((k, j) :: fs)
      = (k, substitutePlaceholders vals j) :: substFields vals fs) ∧
    (∀ name (v : String) tail, ('$' : Char) ∉ v.data →
      jsReplaceAll (tokenOf name) v.data (tokenOf name ++ tail)
        = v.data ++ jsReplaceAll (tokenOf name) v.data tail) ∧
    (∀ name v, ('$' : Char) ∉ v.data →
      substitutePlaceholders [(name, v)] (Json.str (String.mk (tokenOf name)))
        = Json.str v) ∧
    (∀ pat rep pre s, containsPat pat s = false → jsReplaceGo pat rep pre s = s) ∧
    (substitutePlaceholders [("state_code", "06")]
        (Json.obj [("state", Json.str "\x7bstate_code\x7d")])
      = Json.obj [("state", Json.str "06")]) := by
  refine ⟨?_, ?_, ?_, ?_, ?_, ?_, ?_, ?_, ?_, ?_⟩
  · intro vals n; simp [substitutePlaceholders]
  · intro vals b; simp [substitutePlaceholders]
  · intro vals; simp [substitutePlaceholders]
  · intro vals xs; simp [substitutePlaceholders]
  · intro vals fs; simp [substitutePlaceholders]
  · intro vals k j fs; simp [substFields]
  · intro name v tail hrep
    exact jsReplaceAll_token_of_not_dollar name v tail hrep
  · intro name v hrep
    have htok : jsReplaceAll (tokenOf name) v.data (tokenOf name) = v.data := by
      have h1 := jsReplaceAll_token_of_not_dollar name v [] hrep
      rw [List.append_nil] at h1
      rw [h1, jsReplaceAll, jsReplaceGo_nil, List.append_nil]
    have hstr : substStr [(name, v)] (String.mk (tokenOf name)) = v := by
      rw [substStr]
      simp only [List.foldl_cons, List.foldl_nil]
      rw [htok]
    simp [substitutePlaceholders, hstr]
  · intro pat rep pre s h
    exact jsReplaceGo_no_match pat rep s pre h
  · simp [substitutePlaceholders, substFields, substStr, jsReplaceAll, jsReplaceGo,
      expandDollar, tokenOf, lbrace, rbrace, List.isPrefixOf]

/-- Witness for `c8_substitution`'s hypothesis-bearing parts: a
`$`-free value is inserted verbatim for a token, a `$`-free value
substitutes a single-token leaf exactly, and a string without the token
is left unchanged. -/
theorem c8_substitution_witness :
    jsReplaceAll (tokenOf "state_code") ("06".data) (tokenOf "state_code" ++ [])
      = "06".data ++ jsReplaceAll (tokenOf "state_code") ("06".data) [] ∧
    substitutePlaceholders [("year", "2021")]
        (Json.str (String.mk (tokenOf "year"))) = Json.str "2021" ∧
    jsReplaceGo ("\x7bz\x7d".data) ("9".data) [] ("abc".data) = "abc".data :=
  ⟨c8_substitution.2.2.2.2.2.2.1 "state_code" "06" [] (by decide),
   c8_substitution.2.2.2.2.2.2.2.1 "year" "2021" (by decide),
   c8_substitution.2.2.2.2.2.2.2.2.1 ("\x7bz\x7d".data) ("9".data) [] ("abc".data) rfl⟩

/-! ## Claim C5: fingerprint determinism -/

theorem canonFields_eq_map : ∀ fs : List (String × Json),
    canonFields fs = fs.map (fun p => (p.1, canonicalJson p.2)) := by
  intro fs
  induction fs with
  | nil => simp [canonFields]
  | cons p rest ih =>
    obtain ⟨k, v⟩ := p
    rw [canonFields, ih]
    rfl

theorem keysOf_canonFields (fs : List (String × Json)) :
    keysOf (canonFields fs) = keysOf fs := by
  rw [canonFields_eq_map]
  simp [keysOf]

/-- Two lists of fields that are permutations of one another, have no
duplicate keys, and are both sorted by key, are equal. -/
theorem eq_of_sorted_keyLe_perm :
    ∀ l1 l2 : List (String × Json), l1.Perm l2 → (keysOf l1).Nodup →
      List.Sorted keyLe l1 → List.Sorted keyLe l2 → l1 = l2 := by
  intro l1
  induction l1 with
  | nil =>
    intro l2 hp _ _ _
    exact hp.nil_eq
  | cons a l1 ih =>
    intro l2 hp hnd hs1 hs2
    cases l2 with
    | nil => exact absurd hp.eq_nil (by simp)
    | cons b l2 =>
      have hab : a = b := by
        by_contra hne
        have ha2 : a ∈ b :: l2 := hp.subset (List.mem_cons_self a l1)
        have hb1 : b ∈ a :: l1 := hp.symm.subset (List.mem_cons_self b l2)
        have ha2' : a ∈ l2 := by
          rcases List.mem_cons.mp ha2 with h | h
          · exact absurd h hne
          · exact h
        have hb1' : b ∈ l1 := by
          rcases List.mem_cons.mp hb1 with h | h
          · exact absurd h.symm hne
          · exact h
        have h1 : keyLe a b := (List.sorted_cons.mp hs1).1 b hb1'
        have h2 : keyLe b a := (List.sorted_cons.mp hs2).1 a ha2'
        have hkey : a.1 = b.1 := le_antisymm h1 h2
        have hnda : a.1 ∉ keysOf l1 := (List.nodup_cons.mp hnd).1
        refine hnda ?_
        rw [hkey]
        exact List.mem_map_of_mem Prod.fst hb1'
      subst hab
      have hp' := hp.cons_inv
      have hnd' : (keysOf l1).Nodup := (List.nodup_cons.mp hnd).2
      have hs1' := (List.sorted_cons.mp hs1).2
      have hs2' := (List.sorted_cons.mp hs2).2
      rw [ih l2 hp' hnd' hs1' hs2']

theorem canonicalJson_obj_perm (p1 p2 : List (String × Json))
    (hperm : p1.Perm p2) (hnd : (keysOf p1).Nodup) :
    canonicalJson (Json.obj p1) = canonicalJson (Json.obj p2) := by
  rw [show canonicalJson (Json.obj p1) = Json.obj (sortFields (canonFields p1)) by
      simp [canonicalJson],
    show canonicalJson (Json.obj p2) = Json.obj (sortFields (canonFields p2)) by
      simp [canonicalJson]]
  congr 1
  have hpc : (canonFields p1).Perm (canonFields p2) := by
    rw [canonFields_eq_map, canonFields_eq_map]
    exact hperm.map _
  have hndc : (keysOf (canonFields p1)).Nodup := by
    rw [keysOf_canonFields]; exact hnd
  have hperm1 : (sortFields (canonFields p1)).Perm (sortFields (canonFields p2)) :=
    (List.perm_insertionSort keyLe _).trans
      (hpc.trans (List.perm_insertionSort keyLe _).symm)
  have hkeysPerm : (keysOf (sortFields (canonFields p1))).Perm (keysOf (canonFields p1)) :=
    (List.perm_insertionSort keyLe _).map Prod.fst
  have hnds : (keysOf (sortFields (canonFields p1))).Nodup :=
    hkeysPerm.symm.nodup hndc
  exact eq_of_sorted_keyLe_perm _ _ hperm1 hnds
    (List.sorted_insertionSort keyLe _) (List.sorted_insertionSort keyLe _)

/-- Claim C5: the fingerprint is a deterministic function of
`(connectorSourceId, resolved parameters, format)`; in particular two
parameter maps that hold the same key/value pairs in different insertion
orders (with no duplicate keys, as in any JSON object) produce the same
fingerprint, because keys are sort-normalized before the digest input is
formed. -/
theorem c5_fingerprint_deterministic (sid fmt : String)
    (p1 p2 : List (String × Json)) (hperm : p1.Perm p2)
    (hnd : (keysOf p1).Nodup) :
    fingerprint sid (Json.obj p1) fmt = fingerprint sid (Json.obj p2) fmt := by
  rw [fingerprint, fingerprint, canonicalJson_obj_perm p1 p2 hperm hnd]

/-- Witness: permuting `state` and `year` leaves the fingerprint
unchanged. -/
theorem c5_fingerprint_deterministic_witness :
    fingerprint "census_acs"
        (Json.obj [("state", Json.str "06"), ("year", Json.str "2021")]) "JSON"
      = fingerprint "census_acs"
        (Json.obj [("year", Json.str "2021"), ("state", Json.str "06")]) "JSON" :=
  c5_fingerprint_deterministic "census_acs" "JSON"
    [("state", Json.str "06"), ("year", Json.str "2021")]
    [("year", Json.str "2021"), ("state", Json.str "06")]
    (List.Perm.swap ("year", Json.str "2021") ("state", Json.str "06") [])
    (by simp [keysOf])

end DataRetrieval
